import Mathlib

set_option maxRecDepth 100000

/-!
# Verification of the deck-narrator video compilation engine

Shallow embedding of `src/services/videoCompiler.ts` (class `VideoCompiler`)
and of the synthesis loop in `src/components/VideoGeneration.tsx`
(`startGeneration`), with theorems settling the frozen claims about the
timeline-synchronized compilation engine.

Modelling conventions:
* Web Audio `AudioBuffer` is modelled as a sample rate, a stored frame
  `length`, and per-channel sample data (`List ℚ`).  `duration` is
  `length / sampleRate`, as the Web Audio spec defines it.
* JavaScript numbers are modelled as `ℚ`; `Math.ceil` is `Int.ceil` and
  `Math.round` (round half towards +∞) is `⌊x + 1/2⌋`.
* Fallible operations (`TypedArray.prototype.set` past the end of the
  target, `getChannelData` with an out-of-range channel) return `Option`;
  `none` models the thrown exception.
* Browser effects that carry no data relevant to the claims (image
  loading, canvas drawing, the actual `MediaRecorder` byte stream) are not
  modelled; `compile` instead records the frame schedule (which slide is
  drawn at each produced frame), the progress percentages delivered to the
  progress callback, and the resource release/stop calls it performs.
* `API_CONFIG.video.fps`, `audioPadding` and the `AudioContext` sample
  rate are passed as parameters (`fps`, `paddingSeconds`, `ctxSampleRate`).
-/

/-- Decoded PCM audio, the model of a Web Audio `AudioBuffer`:
`sampleRate`, the stored frame `length`, and one sample list per channel. -/
structure AudioBuf where
  sampleRate : ℚ
  length : ℕ
  data : List (List ℚ)
  deriving DecidableEq

/-- `AudioBuffer.duration = length / sampleRate`. -/
def AudioBuf.duration (b : AudioBuf) : ℚ := (b.length : ℚ) / b.sampleRate

/-- `AudioBuffer.numberOfChannels`. -/
def AudioBuf.numberOfChannels (b : AudioBuf) : ℕ := b.data.length

/-- `AudioBuffer.getChannelData(ch)`: `none` models the `IndexSizeError`
thrown on an out-of-range channel index. -/
def AudioBuf.getChannelData (b : AudioBuf) (ch : ℕ) : Option (List ℚ) :=
  b.data.get? ch

/-- `AudioContext.createBuffer(numChannels, len, rate)`: zero-filled. -/
def createBuffer (numChannels len : ℕ) (rate : ℚ) : AudioBuf :=
  ⟨rate, len, List.replicate numChannels (List.replicate len 0)⟩

/-- One slide (`src/types/index.ts`), restricted to the fields the
compilation engine reads: the narration `script` fed to the TTS provider
and the optional synthesized `audioBuffer`.  (`id`, `pageNumber`,
`imageDataUrl`, `wordCount`, `charCount`, `audioDuration` are not read by
the code under verification.) -/
structure Slide where
  script : String
  audioBuffer : Option AudioBuf
  deriving DecidableEq

/-- `Float64Array.prototype.set(source, offset)` on channel data: writes
`source` into `target` starting at `offset`; `none` models the
`RangeError` thrown when the source does not fit. -/
def setAt (target source : List ℚ) (offset : ℕ) : Option (List ℚ) :=
  if offset + source.length ≤ target.length then
    some (target.take offset ++ source ++ target.drop (offset + source.length))
  else none

/-- The running-total loop of `combineAudio` (videoCompiler.ts:121-126):
`totalDuration += slide.audioBuffer.duration + paddingSeconds` for every
slide that has audio; slides without audio contribute nothing. -/
def totalAudioDuration (paddingSeconds : ℚ) (slides : List Slide) : ℚ :=
  slides.foldl
    (fun acc s =>
      match s.audioBuffer with
      | some b => acc + (b.duration + paddingSeconds)
      | none => acc)
    0

/-- `slides[0]?.audioBuffer?.numberOfChannels || 2`
(videoCompiler.ts:131): the first slide's channel count, with `2` when
the first slide is absent, lacks audio, or reports `0` channels (`0` is
falsy in JavaScript). -/
def numberOfChannels (slides : List Slide) : ℕ :=
  let n := ((slides.head?.bind Slide.audioBuffer).map AudioBuf.numberOfChannels).getD 0
  if n = 0 then 2 else n

/-- The inner channel loop of `combineAudio` (videoCompiler.ts:143-147):
for each `channel < numChannels`, read the slide's channel data and write
it into the combined buffer's channel at `offset`. -/
def copyChannelsAux (src : AudioBuf) (offset : ℕ) :
    List ℕ → AudioBuf → Option AudioBuf
  | [], dst => some dst
  | ch :: chs, dst =>
    (src.getChannelData ch).bind fun sourceData =>
    (dst.getChannelData ch).bind fun targetData =>
    (setAt targetData sourceData offset).bind fun newData =>
    copyChannelsAux src offset chs { dst with data := dst.data.set ch newData }

/-- The outer copy loop of `combineAudio` (videoCompiler.ts:140-150):
slides without audio are skipped entirely; after copying a slide the
offset advances by `slide.audioBuffer.length
+ Math.ceil(paddingSeconds * sampleRate)`. -/
def copySlides (numChannels padSamples : ℕ) :
    List Slide → ℕ → AudioBuf → Option AudioBuf
  | [], _, buf => some buf
  | s :: rest, offset, buf =>
    match s.audioBuffer with
    | none => copySlides numChannels padSamples rest offset buf
    | some b =>
      (copyChannelsAux b offset (List.range numChannels) buf).bind fun buf2 =>
      copySlides numChannels padSamples rest (offset + b.length + padSamples) buf2

/-- The value of `combineAudio`'s running `offset` variable
(videoCompiler.ts:140-150) after the given slides have been processed:
each slide carrying audio advances it by
`slide.audioBuffer.length + padSamples`; slides without audio advance it
not at all. -/
def copyOffset (padSamples : ℕ) (slides : List Slide) : ℕ :=
  ((slides.filterMap Slide.audioBuffer).map (fun b => b.length + padSamples)).sum

/-- `VideoCompiler.combineAudio` (videoCompiler.ts:117-153).
`ctxSampleRate` is `this.audioContext.sampleRate`; `paddingSeconds` is
`API_CONFIG.video.audioPadding / 1000`.  Returns `none` when the copy
loop throws. -/
def combineAudio (ctxSampleRate paddingSeconds : ℚ) (slides : List Slide) :
    Option AudioBuf :=
  let totalDuration := totalAudioDuration paddingSeconds slides
  let totalSamples := (⌈totalDuration * ctxSampleRate⌉).toNat
  let numChannels := numberOfChannels slides
  let combinedBuffer := createBuffer numChannels totalSamples ctxSampleRate
  let padSamples := (⌈paddingSeconds * ctxSampleRate⌉).toNat
  copySlides numChannels padSamples slides 0 combinedBuffer

/-- `Math.round`: round half towards +∞. -/
def jsRound (x : ℚ) : ℤ := ⌊x + 1 / 2⌋

/-- A mono (one-channel) zero-filled buffer of `len` frames at rate `sr`:
concrete audio for the test inputs below. -/
def monoBuf (len : ℕ) (sr : ℚ) : AudioBuf :=
  ⟨sr, len, [List.replicate len 0]⟩

/-- A slide carrying `monoBuf len sr` as its synthesized audio. -/
def monoSlide (len : ℕ) (sr : ℚ) : Slide :=
  ⟨"narration", some (monoBuf len sr)⟩

/-- Two slides of 1 s each at 10 Hz (durations 1 s and 1 s). -/
def twoSlides : List Slide := [monoSlide 10 10, monoSlide 10 10]

/-- Concrete scenario A of the spec: three slides with audio durations
2 s, 3 s and 1 s (here realized at a 10 Hz sample rate). -/
def scenarioSlides : List Slide :=
  [monoSlide 20 10, monoSlide 30 10, monoSlide 10 10]

/-- Concrete scenario C of the spec: four slides where the slide at
index 2 has no audio. -/
def missingAudioSlides : List Slide :=
  [monoSlide 10 10, monoSlide 10 10, ⟨"slide two", none⟩, monoSlide 10 10]

/-- Two slides whose audio sample rates differ (10 Hz vs 20 Hz). -/
def mismatchedSlides : List Slide := [monoSlide 10 10, monoSlide 20 20]

/-- Two slides with distinguishable (non-zero) samples and mismatched
sample rates: 3 samples `[5, 6, 7]` at 10 Hz, then 2 samples `[1, 2]`
at 20 Hz. -/
def rampSlides : List Slide :=
  [⟨"first", some ⟨10, 3, [[5, 6, 7]]⟩⟩, ⟨"second", some ⟨20, 2, [[1, 2]]⟩⟩]

/-- A three-channel zero-filled buffer of 10 frames at 10 Hz. -/
def threeChanBuf : AudioBuf :=
  ⟨10, 10, [List.replicate 10 0, List.replicate 10 0, List.replicate 10 0]⟩

/-- A mono first slide followed by a three-channel slide: the later
slide's extra channels are beyond the composite's channel count. -/
def mixedChannelSlides : List Slide :=
  [monoSlide 10 10, ⟨"wide", some threeChanBuf⟩]

/-- One slide of 1 s at 1 Hz. -/
def oneSlide : List Slide := [monoSlide 1 1]

/-- A TTS provider that fails exactly on the script `"b"`. -/
def failingProvider : String → Except String AudioBuf :=
  fun t => if t = "b" then .error "boom" else .ok (monoBuf 5 10)

/-- Three slides whose scripts are `"a"`, `"b"`, `"c"`. -/
def abcSlides : List Slide := [⟨"a", none⟩, ⟨"b", none⟩, ⟨"c", none⟩]

/-- Per-slide frame count (videoCompiler.ts:166-167):
`Math.ceil(((slide.audioBuffer?.duration || 0) + paddingSeconds) * fps)`. -/
def slideFrames (paddingSeconds fps : ℚ) (s : Slide) : ℕ :=
  (⌈((match s.audioBuffer with
      | some b => b.duration
      | none => 0) + paddingSeconds) * fps⌉).toNat

/-- The frame-rendering `while` loop of `renderSlides`
(videoCompiler.ts:183-235), as a function of the per-slide frame counts.
The fuel argument is `totalFrames - currentFrame` (the loop guard is
`currentFrame < totalFrames`).  Each iteration first advances
`currentSlideIndex` when the current slide's frames are exhausted
(breaking when the slide list is exhausted, and otherwise emitting a
progress percentage `Math.round((currentFrame / totalFrames) * 100)`),
then draws the current slide and increments the counters.  Returns the
list of drawn slide indices (one per produced frame, in production
order) and the list of emitted progress percentages. -/
def renderLoop (frames : List ℕ) (total : ℕ) :
    ℕ → ℕ → ℕ → List ℕ × List ℤ
  | 0, _, _ => ([], [])
  | r + 1, idx, fic =>
    if frames.getD idx 0 ≤ fic then
      if frames.length ≤ idx + 1 then ([], [])
      else
        let pct := jsRound (((total - (r + 1) : ℕ) : ℚ) / (total : ℚ) * 100)
        let rest := renderLoop frames total r (idx + 1) 1
        ((idx + 1) :: rest.1, pct :: rest.2)
    else
      let rest := renderLoop frames total r idx (fic + 1)
      (idx :: rest.1, rest.2)

/-- `VideoCompiler.renderSlides` (videoCompiler.ts:155-239): per-slide
frame counts, `totalFrames` as their sum, then the rendering loop.
Returns the frame schedule and the emitted progress percentages. -/
def renderSlides (paddingSeconds fps : ℚ) (slides : List Slide) :
    List ℕ × List ℤ :=
  let frames := slides.map (slideFrames paddingSeconds fps)
  let totalFrames := frames.sum
  renderLoop frames totalFrames totalFrames 0 0

/-- `API_CONFIG.video.codecs.mp4` (config/api.ts). -/
def mp4Codec : String := "video/mp4; codecs=avc1,opus"

/-- `API_CONFIG.video.codecs.webm` (config/api.ts). -/
def webmCodec : String := "video/webm; codecs=vp9,opus"

/-- The candidate list of `getSupportedMimeType`
(videoCompiler.ts:251-254): MP4 first, then WebM. -/
def codecCandidates : List String := [mp4Codec, webmCodec]

/-- `VideoCompiler.getSupportedMimeType` (videoCompiler.ts:250-263):
return the first candidate the runtime reports as supported, else `null`.
`sup` models `MediaRecorder.isTypeSupported`. -/
def getSupportedMimeType (sup : String → Bool) : Option String :=
  codecCandidates.find? sup

/-- The errors `compile` can raise (videoCompiler.ts:21-115):
`emptySlides` models the `TypeError` from `slides[0].imageDataUrl` on an
empty list, `noSupportedCodec` the `'No supported video codec found'`
error, `audioBuildFailed` an exception thrown inside `combineAudio`, and
`recorderError` the `'MediaRecorder error: ...'` rejection raised by the
recorder's `onerror` handler (videoCompiler.ts:81-83). -/
inductive CompileError
  | emptySlides
  | noSupportedCodec
  | audioBuildFailed
  | recorderError (msg : String)
  deriving DecidableEq

/-- The output artifact: the blob's negotiated MIME type (the byte stream
itself is produced by the browser's recorder and carries no further
claim-relevant structure). -/
structure Artifact where
  mimeType : String
  deriving DecidableEq

/-- Resource release / stop calls `VideoCompiler` can perform. -/
inductive Resource
  | mediaRecorderStopped
  | audioSourceStopped
  | audioContextClosed
  deriving DecidableEq

deriving instance DecidableEq for Except

/-- Observable outcome of one `VideoCompiler.compile` call: the result,
the frame schedule, the percentages delivered through the progress
callback (in delivery order), and the release/stop calls performed
before `compile` returned or threw. -/
structure CompileRun where
  result : Except CompileError Artifact
  schedule : List ℕ
  events : List ℤ
  released : List Resource
  deriving DecidableEq

/-- `VideoCompiler.compile` (videoCompiler.ts:21-115), in the order of the
source: load the first slide's image (empty list throws), negotiate the
codec, build the combined audio, record while rendering all frames, stop
the recorder and the audio source, report `percentage: 100` with stage
`complete`, and return the blob.

`recError` is the environment's recorder outcome: `some msg` means the
`MediaRecorder` emitted `onerror` during recording.  That handler only
rejects `recordingPromise` (videoCompiler.ts:81-83); the rejection
surfaces at `return await recordingPromise` (line 110) — *after* the
frame loop has completed, `mediaRecorder.stop()` and `audioSource.stop()`
(lines 99-100) have run and the `complete`/100% progress event
(lines 102-108) has been delivered.  The `catch` block (lines 111-114)
only logs and rethrows: the pre-recording error paths (empty slides,
codec negotiation, audio build) perform no release/stop call and deliver
no progress event before surfacing. -/
def compile (sup : String → Bool) (recError : Option String)
    (ctxSampleRate paddingSeconds fps : ℚ)
    (slides : List Slide) : CompileRun :=
  match slides.head? with
  | none => ⟨.error .emptySlides, [], [], []⟩
  | some _ =>
    match getSupportedMimeType sup with
    | none => ⟨.error .noSupportedCodec, [], [], []⟩
    | some mimeType =>
      match combineAudio ctxSampleRate paddingSeconds slides with
      | none => ⟨.error .audioBuildFailed, [], [], []⟩
      | some _ =>
        let r := renderSlides paddingSeconds fps slides
        ⟨match recError with
          | some msg => .error (.recorderError msg)
          | none => .ok ⟨mimeType⟩,
          r.1, r.2 ++ [100],
          [.mediaRecorderStopped, .audioSourceStopped]⟩

/-- `VideoCompiler.cleanup` (videoCompiler.ts:265-267): closes the audio
context and nothing else; it is a separate method the caller must invoke. -/
def cleanup : List Resource := [.audioContextClosed]

/-- Error raised by `startGeneration` (VideoGeneration.tsx): a TTS
failure naming the 0-based slide index and its cause, or a compile
failure. -/
inductive GenError
  | synthFailed (idx : ℕ) (cause : String)
  | compileFailed (e : CompileError)
  deriving DecidableEq

/-- The sequential TTS loop of `startGeneration`
(VideoGeneration.tsx:72-100): call the provider on each slide's script in
index order; on the first failure rethrow an error naming that slide and
stop (slides after it are never passed to the provider).  Returns the
list of slide indices the provider was called on and either the error or
the updated slide list. -/
def synthLoop (provider : String → Except String AudioBuf) :
    List Slide → ℕ → List ℕ × Except (ℕ × String) (List Slide)
  | [], _ => ([], .ok [])
  | s :: rest, i =>
    match provider s.script with
    | .error c => ([i], .error (i, c))
    | .ok b =>
      let r := synthLoop provider rest (i + 1)
      (i :: r.1, r.2.map (fun updated => { s with audioBuffer := some b } :: updated))

/-- `startGeneration` (VideoGeneration.tsx:41-141), restricted to its
dataflow: synthesize every slide in order, then compile the updated
slides; a synthesis failure aborts before `compile` is reached (the outer
`catch` sets the error state and no video blob is produced). -/
def startGeneration (provider : String → Except String AudioBuf)
    (sup : String → Bool) (recError : Option String)
    (ctxSampleRate paddingSeconds fps : ℚ)
    (slides : List Slide) : List ℕ × Except GenError Artifact :=
  let r := synthLoop provider slides 0
  match r.2 with
  | .error ec => (r.1, .error (.synthFailed ec.1 ec.2))
  | .ok updated =>
    (r.1,
      (compile sup recError ctxSampleRate paddingSeconds fps updated).result.mapError
      .compileFailed)

/-! ## Basic facts about the embedded primitives -/

theorem setAt_eq_some {target source out : List ℚ} {offset : ℕ}
    (h : setAt target source offset = some out) :
    offset + source.length ≤ target.length
    ∧ out = target.take offset ++ source ++ target.drop (offset + source.length) := by
  unfold setAt at h
  by_cases hle : offset + source.length ≤ target.length
  · rw [if_pos hle] at h
    exact ⟨hle, (Option.some_inj.mp h).symm⟩
  · rw [if_neg hle] at h
    cases h

theorem setAt_some_of_le {target source : List ℚ} {offset : ℕ}
    (h : offset + source.length ≤ target.length) :
    setAt target source offset
      = some (target.take offset ++ source ++ target.drop (offset + source.length)) := by
  unfold setAt
  rw [if_pos h]

theorem setAt_length {target source out : List ℚ} {offset : ℕ}
    (h : setAt target source offset = some out) : out.length = target.length := by
  obtain ⟨hle, rfl⟩ := setAt_eq_some h
  simp only [List.length_append, List.length_take, List.length_drop]
  omega

theorem setAt_take_eq {target source out : List ℚ} {offset m : ℕ}
    (h : setAt target source offset = some out) (hm : m ≤ offset) :
    out.take m = target.take m := by
  obtain ⟨hle, rfl⟩ := setAt_eq_some h
  rw [List.append_assoc, List.take_append_of_le_length
    (by simp only [List.length_take]; omega), List.take_take,
    Nat.min_eq_left hm]

/-! ## Evaluation lemmas

`Rat` arithmetic does not reduce inside the kernel, so concrete runs are
evaluated in two steps: `norm_num` turns the rational-valued arguments
(sample counts, padding samples, per-slide frame counts) into literal
naturals, and `decide` then evaluates the remaining purely structural
computation. -/

theorem combineAudio_eval (r P : ℚ) (slides : List Slide) (nCh T pad : ℕ)
    (hn : numberOfChannels slides = nCh)
    (hT : (⌈totalAudioDuration P slides * r⌉).toNat = T)
    (hp : (⌈P * r⌉).toNat = pad) :
    combineAudio r P slides = copySlides nCh pad slides 0 (createBuffer nCh T r) := by
  simp only [combineAudio]
  rw [hn, hT, hp]

theorem renderSlides_eval (P fps : ℚ) (slides : List Slide) (frames : List ℕ)
    (hf : slides.map (slideFrames P fps) = frames) :
    renderSlides P fps slides = renderLoop frames frames.sum frames.sum 0 0 := by
  unfold renderSlides
  rw [hf]

theorem twoSlides_audio_eval :
    combineAudio 10 1 twoSlides = copySlides 1 10 twoSlides 0 (createBuffer 1 40 10) := by
  refine combineAudio_eval 10 1 twoSlides 1 40 10 (by decide) ?_
    (by norm_num; decide)
  norm_num [totalAudioDuration, twoSlides, monoSlide, monoBuf, AudioBuf.duration]
  decide

theorem scenario_frames_eval :
    scenarioSlides.map (slideFrames (2/5) 30) = [72, 102, 42] := by
  norm_num [scenarioSlides, slideFrames, monoSlide, monoBuf, AudioBuf.duration]
  refine ⟨by decide, by decide, by decide⟩

theorem missingAudio_eval :
    combineAudio 10 1 missingAudioSlides
      = copySlides 1 10 missingAudioSlides 0 (createBuffer 1 60 10) := by
  refine combineAudio_eval 10 1 missingAudioSlides 1 60 10 (by decide) ?_
    (by norm_num; decide)
  norm_num [totalAudioDuration, missingAudioSlides, monoSlide, monoBuf, AudioBuf.duration]
  decide

theorem mismatched_audio_eval :
    combineAudio 20 0 mismatchedSlides
      = copySlides 1 0 mismatchedSlides 0 (createBuffer 1 40 20) := by
  refine combineAudio_eval 20 0 mismatchedSlides 1 40 0 (by decide) ?_
    (by norm_num)
  norm_num [totalAudioDuration, mismatchedSlides, monoSlide, monoBuf, AudioBuf.duration]
  decide

/-! ## Counterexamples to the claimed timeline formulas -/

/-- C1 counterexample: for two slides of 1 s each at the context rate
10 Hz and padding 1 s, `combineAudio` allocates
`ceil((Σ durations + P·N) · sampleRate) = 40` samples per channel —
padding is appended after the last slide too — while the claimed formula
`ceil((Σ durations + P·(N−1)) · sampleRate)` gives `30`. -/
theorem combineAudio_trailing_padding_cex :
    (combineAudio 10 1 twoSlides).map (fun b => (b.data.head?.getD []).length)
        = some 40
    ∧ (⌈(((monoBuf 10 10).duration + (monoBuf 10 10).duration)
          + 1 * ((twoSlides.length : ℚ) - 1)) * 10⌉).toNat = 30
    ∧ (40 : ℕ) ≠ 30 := by
  refine ⟨?_, ?_, by decide⟩
  · rw [twoSlides_audio_eval]
    decide
  · norm_num [monoBuf, AudioBuf.duration, twoSlides]
    decide

/-- C2 counterexample: concrete scenario A (slide durations 2 s, 3 s,
1 s, padding 0.4 s, fps 30).  The rendering loop produces 216 frames
(`⌈2.4·30⌉ + ⌈3.4·30⌉ + ⌈1.4·30⌉ = 72 + 102 + 42`), not the claimed
`⌈6.8·30⌉ = 204`. -/
theorem renderSlides_scenarioA_cex :
    (renderSlides (2/5) 30 scenarioSlides).1.length = 216
    ∧ (renderSlides (2/5) 30 scenarioSlides).1.length ≠ 204 := by
  rw [renderSlides_eval (2/5) 30 scenarioSlides [72, 102, 42] scenario_frames_eval]
  refine ⟨by decide, by decide⟩

/-- C3 counterexample: with four slides where the slide at index 2 has
no audio (scenario C), `compile` does not fail at all — there is no
`MissingAudioError` in the code — and an artifact is returned. -/
theorem compile_missingAudio_cex :
    (compile (fun _ => true) none 10 1 1 missingAudioSlides).result
        = .ok ⟨mp4Codec⟩
    ∧ ((compile (fun _ => true) none 10 1 1 missingAudioSlides).result).isOk
        = true := by
  obtain ⟨buf, hbuf⟩ : ∃ b, combineAudio 10 1 missingAudioSlides = some b := by
    have h : (combineAudio 10 1 missingAudioSlides).isSome = true := by
      rw [missingAudio_eval]
      decide
    exact Option.isSome_iff_exists.mp h
  have hhead : missingAudioSlides.head? = some (monoSlide 10 10) := by decide
  constructor
  · simp [compile, hhead, hbuf, getSupportedMimeType, codecCandidates, List.find?_cons]
  · simp [compile, hhead, hbuf, getSupportedMimeType, codecCandidates, List.find?_cons,
      Except.isOk, Except.toBool]

/-- C4 counterexample: two slides whose audio sample rates differ (10 Hz
vs 20 Hz) are accepted by `combineAudio` — the build succeeds, there is
no `SampleRateMismatchError` in the code. -/
theorem combineAudio_rateMismatch_cex :
    ((mismatchedSlides.get? 0).bind Slide.audioBuffer).map AudioBuf.sampleRate
        = some 10
    ∧ ((mismatchedSlides.get? 1).bind Slide.audioBuffer).map AudioBuf.sampleRate
        = some 20
    ∧ (combineAudio 20 0 mismatchedSlides).isSome = true := by
  refine ⟨by norm_num [mismatchedSlides, monoSlide, monoBuf], ?_, ?_⟩
  · norm_num [mismatchedSlides, monoSlide, monoBuf]
  · rw [mismatched_audio_eval]
    decide

/-- C7 counterexample: on the codec-negotiation failure path `compile`
surfaces the error having released nothing — the audio context, the
canvas capture stream and the media recorder are all left unreleased
(the `catch` block only logs and rethrows). -/
theorem compile_errorPath_noRelease_cex :
    (compile (fun _ => false) none 10 1 30 twoSlides).result
        = .error .noSupportedCodec
    ∧ (compile (fun _ => false) none 10 1 30 twoSlides).released = [] := by
  refine ⟨by decide, by decide⟩

/-! ## C5: codec negotiation -/

/-- C5: `getSupportedMimeType` returns the first candidate the runtime
reports as supported, trying MP4 before WebM; when no candidate is
supported, `compile` fails with the no-supported-codec error before any
frame is produced, any progress is reported or any resource is touched,
and no artifact is returned. -/
theorem getSupportedMimeType_priority (sup : String → Bool)
    (recError : Option String) (r P fps : ℚ) (slides : List Slide)
    (hne : slides ≠ []) :
    (sup mp4Codec = true → getSupportedMimeType sup = some mp4Codec)
    ∧ (sup mp4Codec = false → sup webmCodec = true →
        getSupportedMimeType sup = some webmCodec)
    ∧ (sup mp4Codec = false → sup webmCodec = false →
        (compile sup recError r P fps slides).result = .error .noSupportedCodec
        ∧ (compile sup recError r P fps slides).schedule = []
        ∧ (compile sup recError r P fps slides).events = []
        ∧ (compile sup recError r P fps slides).released = []) := by
  obtain ⟨s, rest, rfl⟩ := List.exists_cons_of_ne_nil hne
  refine ⟨fun h1 => ?_, fun h1 h2 => ?_, fun h1 h2 => ?_⟩
  · simp [getSupportedMimeType, codecCandidates, List.find?_cons, h1]
  · simp [getSupportedMimeType, codecCandidates, List.find?_cons, h1, h2]
  · have hm : getSupportedMimeType sup = none := by
      simp [getSupportedMimeType, codecCandidates, List.find?_cons, h1, h2]
    simp [compile, hm]

/-- C5 witness: with a runtime supporting only WebM, negotiation returns
WebM; with a runtime supporting nothing, `compile` on a concrete slide
list fails with `noSupportedCodec` and produces nothing. -/
theorem getSupportedMimeType_priority_witness :
    getSupportedMimeType (fun c => c = webmCodec) = some webmCodec
    ∧ (compile (fun _ => false) none 1 0 1 oneSlide).result
        = .error .noSupportedCodec
    ∧ (compile (fun _ => false) none 1 0 1 oneSlide).released = [] := by
  have h1 := (getSupportedMimeType_priority (fun c => c = webmCodec) none 1 0 1
    oneSlide (by decide)).2.1 (by decide) (by decide)
  have h2 := (getSupportedMimeType_priority (fun _ => false) none 1 0 1 oneSlide
    (by decide)).2.2 rfl rfl
  exact ⟨h1, h2.1, h2.2.2.2⟩

/-! ## C7: resource release on failure paths -/

/-- C7 (amended): on the failure paths that occur before recording
starts — empty slide list, codec negotiation, audio build — `compile`
surfaces the error having released nothing and delivered no progress
event (the `catch` block only logs and rethrows).  A mid-recording
recorder error behaves differently: its rejection surfaces only at the
final `await`, after the frame loop has completed, the media recorder
and the audio source have been stopped (videoCompiler.ts:99-100) and the
`complete`/100% event has been delivered, so on that one failure path
the recorder and audio source *are* stopped before the error reaches the
caller.  On no path does `compile` close the audio context: only the
separate `cleanup` method does, and the caller must invoke it itself. -/
theorem compile_releaseDiscipline (sup : String → Bool)
    (recError : Option String) (r P fps : ℚ) (slides : List Slide) :
    ((compile sup recError r P fps slides).result = .error .emptySlides
      ∨ (compile sup recError r P fps slides).result = .error .noSupportedCodec
      ∨ (compile sup recError r P fps slides).result = .error .audioBuildFailed →
        (compile sup recError r P fps slides).released = []
        ∧ (compile sup recError r P fps slides).events = [])
    ∧ (∀ msg, (compile sup recError r P fps slides).result
          = .error (.recorderError msg) →
        (compile sup recError r P fps slides).released
          = [.mediaRecorderStopped, .audioSourceStopped]
        ∧ (compile sup recError r P fps slides).events.getLast? = some 100)
    ∧ (∀ a, (compile sup recError r P fps slides).result = .ok a →
        (compile sup recError r P fps slides).released
          = [.mediaRecorderStopped, .audioSourceStopped])
    ∧ cleanup = [.audioContextClosed] := by
  unfold compile
  cases h1 : slides.head? with
  | none =>
      refine ⟨fun _ => ⟨rfl, rfl⟩, fun msg hmsg => ?_, fun a ha => ?_, rfl⟩
      · simp at hmsg
      · simp at ha
  | some s =>
    cases h2 : getSupportedMimeType sup with
    | none =>
        refine ⟨fun _ => ⟨rfl, rfl⟩, fun msg hmsg => ?_, fun a ha => ?_, rfl⟩
        · simp at hmsg
        · simp at ha
    | some m =>
      cases h3 : combineAudio r P slides with
      | none =>
          refine ⟨fun _ => ⟨rfl, rfl⟩, fun msg hmsg => ?_, fun a ha => ?_, rfl⟩
          · simp at hmsg
          · simp at ha
      | some buf =>
        cases recError with
        | some msg0 =>
            refine ⟨fun habs => ?_, fun msg hmsg =>
              ⟨rfl, List.getLast?_concat _⟩, fun a ha => ?_, rfl⟩
            · rcases habs with hx | hx | hx <;> simp at hx
            · simp at ha
        | none =>
            refine ⟨fun habs => ?_, fun msg hmsg => ?_, fun a ha => rfl, rfl⟩
            · rcases habs with hx | hx | hx <;> simp at hx
            · simp at hmsg

/-- C7 witness: a concrete pre-recording failure (no supported codec)
releases nothing and delivers no event; a concrete mid-recording
recorder error surfaces with the recorder and audio source already
stopped and the 100% event delivered; `cleanup` alone closes the audio
context. -/
theorem compile_releaseDiscipline_witness :
    ((compile (fun _ => false) none 10 1 30 oneSlide).released = []
      ∧ (compile (fun _ => false) none 10 1 30 oneSlide).events = [])
    ∧ ((compile (fun _ => true) (some "device lost") 1 0 1 oneSlide).released
        = [.mediaRecorderStopped, .audioSourceStopped]
      ∧ (compile (fun _ => true) (some "device lost") 1 0 1
          oneSlide).events.getLast? = some 100)
    ∧ cleanup = [.audioContextClosed] := by
  refine ⟨(compile_releaseDiscipline (fun _ => false) none 10 1 30 oneSlide).1
      (Or.inr (Or.inl (by decide))), ?_,
    (compile_releaseDiscipline (fun _ => false) none 10 1 30 oneSlide).2.2.2⟩
  have heval : combineAudio 1 0 oneSlide
      = copySlides 1 0 oneSlide 0 (createBuffer 1 1 1) :=
    combineAudio_eval 1 0 oneSlide 1 1 0 (by decide)
      (by norm_num [totalAudioDuration, oneSlide, monoSlide, monoBuf,
        AudioBuf.duration])
      (by norm_num)
  obtain ⟨buf, hbuf⟩ : ∃ x, combineAudio 1 0 oneSlide = some x := by
    refine Option.isSome_iff_exists.mp ?_
    rw [heval]
    decide
  have h : (compile (fun _ => true) (some "device lost") 1 0 1 oneSlide).result
      = .error (.recorderError "device lost") := by
    have hhead : oneSlide.head? = some (monoSlide 1 1) := by decide
    simp [compile, hhead, hbuf, getSupportedMimeType, codecCandidates,
      List.find?_cons]
  exact (compile_releaseDiscipline (fun _ => true) (some "device lost") 1 0 1
    oneSlide).2.1 "device lost" h

/-! ## C6: synthesis failure aborts the run -/

theorem synthLoop_error (provider : String → Except String AudioBuf) :
    ∀ (slides : List Slide) (k i0 : ℕ) (s : Slide) (c : String),
      slides.get? k = some s → provider s.script = .error c →
      (∀ j, j < k → ∀ s', slides.get? j = some s' →
          (provider s'.script).isOk = true) →
      synthLoop provider slides i0 = (List.range' i0 (k + 1), .error (i0 + k, c))
  | [], k, _, _, _, hs, _, _ => by simp at hs
  | s0 :: rest, 0, i0, s, c, hs, hf, _ => by
      simp only [List.get?_cons_zero, Option.some_inj] at hs
      subst hs
      simp [synthLoop, hf, List.range']
  | s0 :: rest, k + 1, i0, s, c, hs, hf, hok => by
      have h0 := hok 0 (Nat.succ_pos k) s0 rfl
      obtain ⟨b, hb⟩ : ∃ b, provider s0.script = .ok b := by
        cases hp : provider s0.script with
        | error e => rw [hp] at h0; simp [Except.isOk, Except.toBool] at h0
        | ok b => exact ⟨b, rfl⟩
      have ih := synthLoop_error provider rest k (i0 + 1) s c
        (by simpa using hs) hf
        (fun j hj s' hs' => hok (j + 1) (by omega) s' (by simpa using hs'))
      have harith : i0 + 1 + k = i0 + (k + 1) := by omega
      simp [synthLoop, hb, ih, List.range', harith, Except.map]

/-- C6: if the TTS provider fails on slide `i` while every earlier slide
synthesizes, `startGeneration` aborts: the provider is called exactly on
slides `0..i` (none after `i`), the surfaced error names slide `i` and
its cause, and no video artifact is produced (`compile` is never
reached). -/
theorem startGeneration_abortsOnSynthFailure
    (provider : String → Except String AudioBuf) (sup : String → Bool)
    (recError : Option String) (r P fps : ℚ) (slides : List Slide)
    (i : ℕ) (s : Slide) (c : String)
    (hs : slides.get? i = some s)
    (hf : provider s.script = .error c)
    (hok : ∀ j, j < i → ∀ s', slides.get? j = some s' →
        (provider s'.script).isOk = true) :
    startGeneration provider sup recError r P fps slides
      = (List.range (i + 1), .error (.synthFailed i c)) := by
  have h := synthLoop_error provider slides i 0 s c hs hf hok
  simp [startGeneration, h, List.range_eq_range']

/-- C6 witness: three slides with scripts `a`, `b`, `c` and a provider
failing exactly on `b`: the run calls the provider on slides 0 and 1
only, and surfaces `synthFailed 1 "boom"` with no artifact. -/
theorem startGeneration_abortsOnSynthFailure_witness :
    startGeneration failingProvider (fun _ => true) none 10 1 1 abcSlides
      = (List.range 2, .error (.synthFailed 1 "boom")) := by
  exact startGeneration_abortsOnSynthFailure failingProvider (fun _ => true)
    none 10 1 1 abcSlides 1 ⟨"b", none⟩ "boom" (by decide) (by decide)
    (by decide)

/-! ## C2 and C8: the frame-rendering loop -/

theorem renderLoop_length (frames : List ℕ) (total : ℕ) :
    ∀ (r idx fic : ℕ), idx < frames.length →
      r ≤ (frames.getD idx 0 - fic) + (frames.drop (idx + 1)).sum →
      (renderLoop frames total r idx fic).1.length = r
  | 0, idx, fic, _, _ => by simp [renderLoop]
  | r + 1, idx, fic, hidx, hr => by
      by_cases hadv : frames.getD idx 0 ≤ fic
      · have hsum : r + 1 ≤ (frames.drop (idx + 1)).sum := by omega
        have hlt : idx + 1 < frames.length := by
          by_contra hge
          rw [List.drop_eq_nil_of_le (by omega)] at hsum
          simp at hsum
        have hdrop : frames.drop (idx + 1)
            = frames.getD (idx + 1) 0 :: frames.drop (idx + 1 + 1) := by
          rw [List.drop_eq_getElem_cons hlt, List.getD_eq_getElem _ _ hlt]
        have ih := renderLoop_length frames total r (idx + 1) 1 hlt (by
          rw [hdrop] at hsum
          simp only [List.sum_cons] at hsum
          omega)
        simp only [renderLoop, if_pos hadv, if_neg (by omega : ¬ frames.length ≤ idx + 1)]
        simpa using ih
      · have ih := renderLoop_length frames total r idx (fic + 1) hidx (by omega)
        simp only [renderLoop, if_neg hadv]
        simpa using ih

/-- C2 (amended): the rendering loop produces exactly
`Σ_i ceil((duration_i + padding) · fps)` frames — each slide's frame
count is rounded up separately and includes a padding interval after
every slide, the last included; on concrete scenario A this gives 216
frames, not `ceil(totalDuration · fps) = 204`. -/
theorem renderSlides_frameCount :
    (∀ (P fps : ℚ) (slides : List Slide),
        (renderSlides P fps slides).1.length
          = (slides.map (slideFrames P fps)).sum)
    ∧ (renderSlides (2/5) 30 scenarioSlides).1.length = 216 := by
  constructor
  · intro P fps slides
    unfold renderSlides
    cases hf : slides.map (slideFrames P fps) with
    | nil => simp [renderLoop]
    | cons f0 rest =>
        apply renderLoop_length
        · simp
        · simp
  · rw [renderSlides_eval (2/5) 30 scenarioSlides [72, 102, 42] scenario_frames_eval]
    decide

theorem renderLoop_mono (frames : List ℕ) (total : ℕ) :
    ∀ (r idx fic : ℕ),
      List.Chain' (· ≤ ·) (renderLoop frames total r idx fic).1
      ∧ ∀ x ∈ (renderLoop frames total r idx fic).1, idx ≤ x
  | 0, idx, fic => by simp [renderLoop]
  | r + 1, idx, fic => by
      by_cases hadv : frames.getD idx 0 ≤ fic
      · by_cases hend : frames.length ≤ idx + 1
        · simp only [renderLoop, if_pos hadv, if_pos hend]
          simp
        · have ih := renderLoop_mono frames total r (idx + 1) 1
          simp only [renderLoop, if_pos hadv, if_neg hend]
          refine ⟨List.chain'_cons'.mpr ⟨fun y hy => ?_, ih.1⟩, fun x hx => ?_⟩
          · exact ih.2 y (List.mem_of_mem_head? hy)
          · rcases List.mem_cons.mp hx with rfl | hx
            · omega
            · have := ih.2 x hx
              omega
      · have ih := renderLoop_mono frames total r idx (fic + 1)
        simp only [renderLoop, if_neg hadv]
        refine ⟨List.chain'_cons'.mpr ⟨fun y hy => ?_, ih.1⟩, fun x hx => ?_⟩
        · exact ih.2 y (List.mem_of_mem_head? hy)
        · rcases List.mem_cons.mp hx with rfl | hx
          · exact le_refl x
          · exact ih.2 x hx

/-- C8: over a whole rendering run, the slide index drawn at frame `f`
is non-decreasing as `f` increases: `currentSlideIndex` is only ever
incremented, so slides are displayed in index order and never
revisited. -/
theorem renderSlides_slideIndexMonotone (P fps : ℚ) (slides : List Slide) :
    List.Chain' (· ≤ ·) (renderSlides P fps slides).1 := by
  unfold renderSlides
  exact (renderLoop_mono _ _ _ _ _).1


/-! ## C10: monotone progress reporting -/

theorem jsRound_mono {x y : ℚ} (h : x ≤ y) : jsRound x ≤ jsRound y :=
  Int.floor_le_floor (by linarith)

theorem jsRound_100 : jsRound (100 : ℚ) = 100 := by
  norm_num [jsRound]

theorem jsRound_le_100 {x : ℚ} (h : x ≤ 100) : jsRound x ≤ 100 := by
  have h2 : jsRound x ≤ jsRound 100 := jsRound_mono h
  rwa [jsRound_100] at h2

theorem pct_mono (total : ℕ) {a b : ℕ} (hab : a ≤ b) :
    jsRound ((a : ℚ) / (total : ℚ) * 100)
      ≤ jsRound ((b : ℚ) / (total : ℚ) * 100) := by
  apply jsRound_mono
  apply mul_le_mul_of_nonneg_right _ (by norm_num)
  rcases Nat.eq_zero_or_pos total with ht | ht
  · subst ht; simp
  · exact (div_le_div_iff_of_pos_right (by exact_mod_cast ht)).mpr (by exact_mod_cast hab)

theorem pct_le_100 (total : ℕ) {a : ℕ} (ha : a ≤ total) :
    jsRound ((a : ℚ) / (total : ℚ) * 100) ≤ 100 := by
  apply jsRound_le_100
  have h1 : ((a : ℚ) / (total : ℚ)) ≤ 1 := by
    rcases Nat.eq_zero_or_pos total with ht | ht
    · subst ht; simp
    · rw [div_le_one (by exact_mod_cast ht)]
      exact_mod_cast ha
  linarith

theorem renderLoop_events (frames : List ℕ) (total : ℕ) :
    ∀ (r idx fic : ℕ),
      List.Chain' (· ≤ ·) (renderLoop frames total r idx fic).2
      ∧ ∀ p ∈ (renderLoop frames total r idx fic).2,
          jsRound (((total - r : ℕ) : ℚ) / (total : ℚ) * 100) ≤ p ∧ p ≤ 100
  | 0, idx, fic => by simp [renderLoop]
  | r + 1, idx, fic => by
      by_cases hadv : frames.getD idx 0 ≤ fic
      · by_cases hend : frames.length ≤ idx + 1
        · simp only [renderLoop, if_pos hadv, if_pos hend]
          simp
        · have ih := renderLoop_events frames total r (idx + 1) 1
          simp only [renderLoop, if_pos hadv, if_neg hend]
          refine ⟨List.chain'_cons'.mpr ⟨fun y hy => ?_, ih.1⟩, fun p hp => ?_⟩
          · have hmem := List.mem_of_mem_head? hy
            exact le_trans (pct_mono total (by omega)) (ih.2 y hmem).1
          · rcases List.mem_cons.mp hp with rfl | hp'
            · exact ⟨le_refl _, pct_le_100 total (by omega)⟩
            · obtain ⟨hp1, hp2⟩ := ih.2 p hp'
              exact ⟨le_trans (pct_mono total (by omega)) hp1, hp2⟩
      · have ih := renderLoop_events frames total r idx (fic + 1)
        simp only [renderLoop, if_neg hadv]
        refine ⟨ih.1, fun p hp => ?_⟩
        obtain ⟨hp1, hp2⟩ := ih.2 p hp
        exact ⟨le_trans (pct_mono total (by omega)) hp1, hp2⟩

theorem renderSlides_events_facts (P fps : ℚ) (slides : List Slide) :
    List.Chain' (· ≤ ·) (renderSlides P fps slides).2
    ∧ ∀ p ∈ (renderSlides P fps slides).2, p ≤ 100 := by
  unfold renderSlides
  exact ⟨(renderLoop_events _ _ _ _ _).1,
    fun p hp => ((renderLoop_events _ _ _ _ _).2 p hp).2⟩

/-- C10: within one successful `compile` run, the percentages delivered
through the progress callback are non-decreasing in delivery order, and
the final reported percentage is exactly 100 (the `complete` event). -/
theorem compile_progressMonotone (sup : String → Bool)
    (recError : Option String) (r P fps : ℚ)
    (slides : List Slide) (a : Artifact)
    (h : (compile sup recError r P fps slides).result = .ok a) :
    List.Chain' (· ≤ ·) (compile sup recError r P fps slides).events
    ∧ (compile sup recError r P fps slides).events.getLast? = some 100 := by
  unfold compile at h ⊢
  cases h1 : slides.head? with
  | none => rw [h1] at h; simp at h
  | some s =>
    simp only [h1] at h ⊢
    cases h2 : getSupportedMimeType sup with
    | none => rw [h2] at h; simp at h
    | some m =>
      simp only [h2] at h ⊢
      cases h3 : combineAudio r P slides with
      | none => rw [h3] at h; simp at h
      | some buf =>
        simp only [h3] at h ⊢
        constructor
        · refine List.Chain'.append (renderSlides_events_facts P fps slides).1
            (List.chain'_singleton _) (fun x hx y hy => ?_)
          simp only [List.head?_cons, Option.mem_def, Option.some_inj] at hy
          subst hy
          exact (renderSlides_events_facts P fps slides).2 x
            (List.mem_of_mem_getLast? hx)
        · exact List.getLast?_concat _

/-- C10 witness: a concrete successful one-slide run has non-decreasing
progress percentages ending at exactly 100. -/
theorem compile_progressMonotone_witness :
    List.Chain' (· ≤ ·) (compile (fun _ => true) none 1 0 1 oneSlide).events
    ∧ (compile (fun _ => true) none 1 0 1 oneSlide).events.getLast?
      = some 100 := by
  have heval : combineAudio 1 0 oneSlide
      = copySlides 1 0 oneSlide 0 (createBuffer 1 1 1) :=
    combineAudio_eval 1 0 oneSlide 1 1 0 (by decide)
      (by norm_num [totalAudioDuration, oneSlide, monoSlide, monoBuf,
        AudioBuf.duration])
      (by norm_num)
  obtain ⟨buf, hbuf⟩ : ∃ b, combineAudio 1 0 oneSlide = some b := by
    refine Option.isSome_iff_exists.mp ?_
    rw [heval]
    decide
  have h : (compile (fun _ => true) none 1 0 1 oneSlide).result
      = .ok ⟨mp4Codec⟩ := by
    have hhead : oneSlide.head? = some (monoSlide 1 1) := by decide
    simp [compile, hhead, hbuf, getSupportedMimeType, codecCandidates, List.find?_cons]
  exact compile_progressMonotone (fun _ => true) none 1 0 1 oneSlide ⟨mp4Codec⟩ h

/-! ## The audio copy loop: success and preservation lemmas -/

theorem copyChannelsAux_some {src : AudioBuf} {offset L T : ℕ}
    (hsrc : ∀ c ∈ src.data, c.length = L) (hfit : offset + L ≤ T) :
    ∀ (chs : List ℕ) (dst : AudioBuf),
      (∀ ch ∈ chs, ch < src.data.length ∧ ch < dst.data.length) →
      (∀ c ∈ dst.data, c.length = T) →
      ∃ out, copyChannelsAux src offset chs dst = some out
        ∧ out.data.length = dst.data.length
        ∧ (∀ c ∈ out.data, c.length = T)
        ∧ out.sampleRate = dst.sampleRate ∧ out.length = dst.length
  | [], dst, _, hdst => ⟨dst, rfl, rfl, hdst, rfl, rfl⟩
  | ch :: chs, dst, hch, hdst => by
      obtain ⟨hs, hd⟩ := hch ch (List.mem_cons_self ch chs)
      have hsd : src.data.get? ch = some (src.data.get ⟨ch, hs⟩) :=
        List.get?_eq_get hs
      have htd : dst.data.get? ch = some (dst.data.get ⟨ch, hd⟩) :=
        List.get?_eq_get hd
      have hsdl : (src.data.get ⟨ch, hs⟩).length = L := hsrc _ (List.get_mem _ _ _)
      have htdl : (dst.data.get ⟨ch, hd⟩).length = T := hdst _ (List.get_mem _ _ _)
      have hset := @setAt_some_of_le (dst.data.get ⟨ch, hd⟩)
        (src.data.get ⟨ch, hs⟩) offset (by rw [htdl, hsdl]; exact hfit)
      have hnewlen : ((dst.data.get ⟨ch, hd⟩).take offset ++ src.data.get ⟨ch, hs⟩
          ++ (dst.data.get ⟨ch, hd⟩).drop
              (offset + (src.data.get ⟨ch, hs⟩).length)).length = T := by
        simp only [List.length_append, List.length_take, List.length_drop, htdl, hsdl]
        omega
      obtain ⟨out, hout, h1, h2, h3, h4⟩ := copyChannelsAux_some hsrc hfit chs
        { dst with data := dst.data.set ch ((dst.data.get ⟨ch, hd⟩).take offset
            ++ src.data.get ⟨ch, hs⟩ ++ (dst.data.get ⟨ch, hd⟩).drop
              (offset + (src.data.get ⟨ch, hs⟩).length)) }
        (fun c hc => ⟨(hch c (List.mem_cons_of_mem _ hc)).1,
          by simpa [List.length_set] using (hch c (List.mem_cons_of_mem _ hc)).2⟩)
        (fun c hc => by
          rcases List.mem_or_eq_of_mem_set hc with hc' | rfl
          · exact hdst c hc'
          · exact hnewlen)
      refine ⟨out, ?_, by simpa [List.length_set] using h1, h2, h3, h4⟩
      simp only [copyChannelsAux, AudioBuf.getChannelData]
      rw [hsd, htd]
      simp only [Option.some_bind]
      rw [hset]
      simp only [Option.some_bind]
      exact hout

theorem copySlides_some {nCh padSamples : ℕ} :
    ∀ (rest : List Slide) (offset : ℕ) (buf : AudioBuf) (T : ℕ),
      buf.data.length = nCh →
      (∀ c ∈ buf.data, c.length = T) →
      (∀ s ∈ rest, ∀ b, s.audioBuffer = some b →
          nCh ≤ b.data.length ∧ ∀ c ∈ b.data, c.length = b.length) →
      offset + ((rest.filterMap Slide.audioBuffer).map
          (fun b => b.length + padSamples)).sum ≤ T →
      ∃ out, copySlides nCh padSamples rest offset buf = some out
        ∧ out.data.length = nCh ∧ (∀ c ∈ out.data, c.length = T)
        ∧ out.sampleRate = buf.sampleRate ∧ out.length = buf.length
  | [], offset, buf, T, h1, h2, _, _ => ⟨buf, rfl, h1, h2, rfl, rfl⟩
  | s :: rest, offset, buf, T, h1, h2, hs, hfit => by
      cases hb : s.audioBuffer with
      | none =>
          have hfit' : offset + ((rest.filterMap Slide.audioBuffer).map
              (fun b => b.length + padSamples)).sum ≤ T := by
            rw [List.filterMap_cons, hb] at hfit
            exact hfit
          obtain ⟨out, hout, ho⟩ := copySlides_some rest offset buf T h1 h2
            (fun s' hs' => hs s' (List.mem_cons_of_mem _ hs')) hfit'
          exact ⟨out, by simp only [copySlides, hb]; exact hout, ho⟩
      | some b =>
          obtain ⟨hle, hun⟩ := hs s (List.mem_cons_self s rest) b hb
          have hsum : offset + (b.length + padSamples)
              + ((rest.filterMap Slide.audioBuffer).map
                (fun x => x.length + padSamples)).sum ≤ T := by
            rw [List.filterMap_cons, hb] at hfit
            simp only [List.map_cons, List.sum_cons] at hfit
            omega
          obtain ⟨buf2, hbuf2, hl2, hc2, hr2, hn2⟩ :=
            copyChannelsAux_some hun (by omega : offset + b.length ≤ T)
              (List.range nCh) buf
              (fun ch hch => ⟨lt_of_lt_of_le (List.mem_range.mp hch) hle,
                by rw [h1] at *; exact List.mem_range.mp hch⟩)
              h2
          obtain ⟨out, hout, ho1, ho2, ho3, ho4⟩ :=
            @copySlides_some nCh padSamples rest
              (offset + b.length + padSamples) buf2 T (hl2.trans h1) hc2
              (fun s' hs' => hs s' (List.mem_cons_of_mem _ hs')) (by omega)
          refine ⟨out, ?_, ho1, ho2, by rw [ho3, hr2], by rw [ho4, hn2]⟩
          simp only [copySlides, hb, hbuf2, Option.some_bind]
          exact hout

theorem totalAudioDuration_aux (P : ℚ) :
    ∀ (slides : List Slide) (a : ℚ),
      slides.foldl
        (fun acc s =>
          match s.audioBuffer with
          | some b => acc + (b.duration + P)
          | none => acc) a
      = a + ((slides.filterMap Slide.audioBuffer).map
          (fun b => b.duration + P)).sum
  | [], a => by simp
  | s :: rest, a => by
      cases hb : s.audioBuffer with
      | none =>
          simp only [List.foldl_cons, hb, List.filterMap_cons]
          exact totalAudioDuration_aux P rest a
      | some b =>
          simp only [List.foldl_cons, hb, List.filterMap_cons, List.map_cons,
            List.sum_cons]
          rw [totalAudioDuration_aux P rest (a + (b.duration + P))]
          ring

theorem totalAudioDuration_eq (P : ℚ) (slides : List Slide) :
    totalAudioDuration P slides
      = ((slides.filterMap Slide.audioBuffer).map (fun b => b.duration + P)).sum := by
  unfold totalAudioDuration
  rw [totalAudioDuration_aux P slides 0]
  ring

theorem sum_map_add_const {α : Type} (l : List α) (f : α → ℕ) (k : ℕ) :
    (l.map (fun x => f x + k)).sum = (l.map f).sum + l.length * k := by
  induction l with
  | nil => simp
  | cons a l ih =>
      simp only [List.map_cons, List.sum_cons, List.length_cons, ih]
      ring

theorem durationSum_mul (r P : ℚ) (k : ℕ) (hr : r ≠ 0) (hk : P * r = k) :
    ∀ (bufs : List AudioBuf), (∀ b ∈ bufs, b.sampleRate = r) →
      ((bufs.map (fun b => b.duration + P)).sum) * r
        = (((bufs.map (fun b => b.length + k)).sum : ℕ) : ℚ)
  | [], _ => by simp
  | b :: rest, hrate => by
      have hb : b.sampleRate = r := hrate b (List.mem_cons_self b rest)
      have hone : (b.duration + P) * r = ((b.length : ℚ) + (k : ℚ)) := by
        rw [AudioBuf.duration, hb, add_mul, div_mul_cancel₀ _ hr, hk]
      simp only [List.map_cons, List.sum_cons]
      rw [add_mul, hone, durationSum_mul r P k hr hk rest
        (fun x hx => hrate x (List.mem_cons_of_mem _ hx))]
      push_cast
      ring

/-- Master success lemma for `combineAudio`: when every populated slide's
audio is at the context sample rate, has at least the composite's channel
count, and has uniform per-channel lengths, and the padding converts to a
whole number `k` of samples, the build succeeds and every composite
channel holds `Σ (length_b + k)` samples (the sum over populated slides). -/
theorem combineAudio_some (r P : ℚ) (k : ℕ) (slides : List Slide)
    (hr : 0 < r) (hk : P * r = (k : ℚ))
    (hpop : ∀ s ∈ slides, ∀ b, s.audioBuffer = some b →
        b.sampleRate = r ∧ numberOfChannels slides ≤ b.data.length
        ∧ ∀ c ∈ b.data, c.length = b.length) :
    ∃ buf, combineAudio r P slides = some buf
      ∧ buf.data.length = numberOfChannels slides
      ∧ ∀ c ∈ buf.data,
          c.length = ((slides.filterMap Slide.audioBuffer).map
            (fun b => b.length + k)).sum := by
  have hrate : ∀ b ∈ slides.filterMap Slide.audioBuffer, b.sampleRate = r := by
    intro b hbmem
    obtain ⟨s, hsmem, hsb⟩ := List.mem_filterMap.mp hbmem
    exact (hpop s hsmem b hsb).1
  have hT : (⌈totalAudioDuration P slides * r⌉).toNat
      = ((slides.filterMap Slide.audioBuffer).map (fun b => b.length + k)).sum := by
    rw [totalAudioDuration_eq,
      durationSum_mul r P k (ne_of_gt hr) hk _ hrate, Int.ceil_natCast]
    exact Int.toNat_natCast _
  have hp : (⌈P * r⌉).toNat = k := by
    rw [hk, Int.ceil_natCast]
    exact Int.toNat_natCast _
  rw [combineAudio_eval r P slides (numberOfChannels slides) _ k rfl hT hp]
  obtain ⟨out, hout, h1, h2, _, _⟩ :=
    @copySlides_some (numberOfChannels slides) k slides 0
      (createBuffer (numberOfChannels slides)
        (((slides.filterMap Slide.audioBuffer).map (fun b => b.length + k)).sum) r)
      (((slides.filterMap Slide.audioBuffer).map (fun b => b.length + k)).sum)
      (by simp [createBuffer])
      (by
        intro c hc
        simp only [createBuffer] at hc
        rw [List.eq_of_mem_replicate hc]
        simp)
      (fun s hsm b hb => ⟨(hpop s hsm b hb).2.1, (hpop s hsm b hb).2.2⟩)
      (by omega)
  exact ⟨out, hout, h1, h2⟩

/-! ## C1: composite sample count -/

theorem filterMap_audio_length :
    ∀ (slides : List Slide), (∀ s ∈ slides, (s.audioBuffer).isSome = true) →
      (slides.filterMap Slide.audioBuffer).length = slides.length
  | [], _ => rfl
  | s :: rest, h => by
      obtain ⟨b, hb⟩ := Option.isSome_iff_exists.mp (h s (List.mem_cons_self s rest))
      simp only [List.filterMap_cons, hb, List.length_cons]
      rw [filterMap_audio_length rest (fun s' hs' => h s' (List.mem_cons_of_mem _ hs'))]

theorem sum_map_add_constQ {α : Type} (l : List α) (f : α → ℚ) (c : ℚ) :
    (l.map (fun x => f x + c)).sum = (l.map f).sum + l.length * c := by
  induction l with
  | nil => simp
  | cons a l ih =>
      simp only [List.map_cons, List.sum_cons, List.length_cons, ih]
      push_cast
      ring

/-- C1 (amended): for a non-empty slide list whose slides all have
populated audio at the context sample rate (with uniform channel data and
at least the composite's channel count), and padding `P ≥ 0` converting to
a whole number `k = P·sampleRate` of samples, `combineAudio` returns a
composite of exactly `ceil((Σ durations + P·N) · sampleRate)` samples per
channel, `N` the slide count: a padding interval is appended after
**every** slide, the last included (not `P·(N−1)`). -/
theorem combineAudio_sampleCount (r P : ℚ) (k : ℕ) (slides : List Slide)
    (hr : 0 < r) (hk : P * r = (k : ℚ))
    (hpop : ∀ s ∈ slides, ∃ b, s.audioBuffer = some b ∧ b.sampleRate = r
        ∧ numberOfChannels slides ≤ b.data.length
        ∧ ∀ c ∈ b.data, c.length = b.length) :
    ∃ buf, combineAudio r P slides = some buf
      ∧ ∀ c ∈ buf.data,
          c.length = (⌈(((slides.filterMap Slide.audioBuffer).map
              AudioBuf.duration).sum + P * (slides.length : ℚ)) * r⌉).toNat := by
  have hpop' : ∀ s ∈ slides, ∀ b, s.audioBuffer = some b →
      b.sampleRate = r ∧ numberOfChannels slides ≤ b.data.length
      ∧ ∀ c ∈ b.data, c.length = b.length := by
    intro s hs b hb
    obtain ⟨b', hb', h2, h3, h4⟩ := hpop s hs
    rw [hb] at hb'
    cases Option.some_inj.mp hb'
    exact ⟨h2, h3, h4⟩
  have hrate : ∀ b ∈ slides.filterMap Slide.audioBuffer, b.sampleRate = r := by
    intro b hbmem
    obtain ⟨s, hsmem, hsb⟩ := List.mem_filterMap.mp hbmem
    exact (hpop' s hsmem b hsb).1
  have hlen : (slides.filterMap Slide.audioBuffer).length = slides.length :=
    filterMap_audio_length slides (fun s hs => by
      obtain ⟨b, hb, _⟩ := hpop s hs
      simp [hb])
  obtain ⟨buf, h1, _, h3⟩ := combineAudio_some r P k slides hr hk hpop'
  refine ⟨buf, h1, fun c hc => ?_⟩
  rw [h3 c hc, ← hlen]
  have e1 : ((slides.filterMap Slide.audioBuffer).map AudioBuf.duration).sum
      + P * (((slides.filterMap Slide.audioBuffer).length : ℕ) : ℚ)
      = ((slides.filterMap Slide.audioBuffer).map
          (fun b => AudioBuf.duration b + P)).sum := by
    rw [sum_map_add_constQ (slides.filterMap Slide.audioBuffer) AudioBuf.duration P]
    ring
  rw [e1, durationSum_mul r P k (ne_of_gt hr) hk _ hrate, Int.ceil_natCast,
    Int.toNat_natCast]

/-- C1 witness: two fully populated 1 s slides at 10 Hz with 1 s padding
give a composite of `ceil((2 + 1·2)·10) = 40` samples per channel. -/
theorem combineAudio_sampleCount_witness :
    ∃ buf, combineAudio 10 1 twoSlides = some buf
      ∧ ∀ c ∈ buf.data,
          c.length = (⌈(((twoSlides.filterMap Slide.audioBuffer).map
              AudioBuf.duration).sum + 1 * (twoSlides.length : ℚ)) * 10⌉).toNat := by
  refine combineAudio_sampleCount 10 1 10 twoSlides (by norm_num) (by norm_num) ?_
  intro s hs
  have hs' : s = monoSlide 10 10 := by
    simp only [twoSlides, List.mem_cons, List.not_mem_nil, or_false] at hs
    rcases hs with rfl | rfl <;> rfl
  subst hs'
  exact ⟨monoBuf 10 10, rfl, by norm_num [monoBuf], by decide, by decide⟩

/-! ## C3: missing audio does not fail the build -/

/-- C3 (amended): `compile` performs no missing-audio validation — there
is no `MissingAudioError`.  A slide without audio is skipped entirely by
the audio builder (it contributes neither samples nor padding) while the
renderer still shows it for `ceil(padding·fps)` frames, and `compile`
succeeds and returns an artifact whenever codec negotiation and the copy
loop succeed. -/
theorem compile_skipsMissingAudio (sup : String → Bool) (r P fps : ℚ) (k : ℕ)
    (slides : List Slide)
    (hr : 0 < r) (hk : P * r = (k : ℚ))
    (hsup : (getSupportedMimeType sup).isSome = true)
    (hne : slides ≠ [])
    (hpop : ∀ s ∈ slides, ∀ b, s.audioBuffer = some b →
        b.sampleRate = r ∧ numberOfChannels slides ≤ b.data.length
        ∧ ∀ c ∈ b.data, c.length = b.length) :
    ((compile sup none r P fps slides).result).isOk = true := by
  obtain ⟨buf, hbuf, _, _⟩ := combineAudio_some r P k slides hr hk hpop
  obtain ⟨m, hm⟩ := Option.isSome_iff_exists.mp hsup
  obtain ⟨s, rest, rfl⟩ := List.exists_cons_of_ne_nil hne
  simp [compile, hm, hbuf, Except.isOk, Except.toBool]

/-- C3 witness: the four-slide deck of scenario C (index 2 has no audio)
compiles successfully. -/
theorem compile_skipsMissingAudio_witness :
    ((compile (fun _ => true) none 10 1 1 missingAudioSlides).result).isOk
      = true := by
  refine compile_skipsMissingAudio (fun _ => true) 10 1 1 10 missingAudioSlides
    (by norm_num) (by norm_num) (by decide) (by decide) ?_
  intro s hs b hb
  simp only [missingAudioSlides, List.mem_cons, List.not_mem_nil, or_false] at hs
  rcases hs with rfl | rfl | rfl | rfl
  · cases Option.some_inj.mp hb
    exact ⟨by norm_num [monoBuf], by decide, by decide⟩
  · cases Option.some_inj.mp hb
    exact ⟨by norm_num [monoBuf], by decide, by decide⟩
  · cases hb
  · cases Option.some_inj.mp hb
    exact ⟨by norm_num [monoBuf], by decide, by decide⟩

/-! ## C9: composite channel count comes from the first slide alone -/

theorem copyChannelsAux_shape :
    ∀ (chs : List ℕ) (src : AudioBuf) (offset : ℕ) (dst out : AudioBuf),
      copyChannelsAux src offset chs dst = some out →
      out.data.length = dst.data.length ∧ out.sampleRate = dst.sampleRate
        ∧ out.length = dst.length
  | [], src, offset, dst, out, h => by
      simp only [copyChannelsAux, Option.some_inj] at h
      subst h
      exact ⟨rfl, rfl, rfl⟩
  | ch :: chs, src, offset, dst, out, h => by
      simp only [copyChannelsAux] at h
      obtain ⟨sd, hsd, h⟩ := Option.bind_eq_some.mp h
      obtain ⟨td, htd, h⟩ := Option.bind_eq_some.mp h
      obtain ⟨nd, hnd, h⟩ := Option.bind_eq_some.mp h
      obtain ⟨h1, h2, h3⟩ := copyChannelsAux_shape chs src offset _ out h
      refine ⟨?_, h2, h3⟩
      rw [h1]
      simp [List.length_set]

theorem copySlides_shape :
    ∀ (rest : List Slide) (nCh pad offset : ℕ) (buf out : AudioBuf),
      copySlides nCh pad rest offset buf = some out →
      out.data.length = buf.data.length ∧ out.sampleRate = buf.sampleRate
        ∧ out.length = buf.length
  | [], _, _, _, buf, out, h => by
      simp only [copySlides, Option.some_inj] at h
      subst h
      exact ⟨rfl, rfl, rfl⟩
  | s :: rest, nCh, pad, offset, buf, out, h => by
      simp only [copySlides] at h
      cases hb : s.audioBuffer with
      | none =>
          rw [hb] at h
          exact copySlides_shape rest nCh pad offset buf out h
      | some b =>
          rw [hb] at h
          obtain ⟨buf2, hbuf2, h⟩ := Option.bind_eq_some.mp h
          obtain ⟨g1, g2, g3⟩ := copyChannelsAux_shape _ _ _ _ _ hbuf2
          obtain ⟨h1, h2, h3⟩ := copySlides_shape rest nCh pad _ buf2 out h
          exact ⟨h1.trans g1, h2.trans g2, h3.trans g3⟩

/-- C9: the composite's channel count is taken from the first slide's
audio alone — it equals the first slide's `numberOfChannels` (when
present and positive) and is `2` when the first slide has no audio —
regardless of every later slide's channel count. -/
theorem combineAudio_channelCount (r P : ℚ) (slides : List Slide)
    (buf : AudioBuf) (h : combineAudio r P slides = some buf) :
    (∀ s0 b0, slides.head? = some s0 → s0.audioBuffer = some b0 →
        0 < b0.data.length → buf.data.length = b0.data.length)
    ∧ (slides.head?.bind Slide.audioBuffer = none → buf.data.length = 2) := by
  have h' : copySlides (numberOfChannels slides)
      ((⌈P * r⌉).toNat) slides 0
      (createBuffer (numberOfChannels slides)
        ((⌈totalAudioDuration P slides * r⌉).toNat) r) = some buf := by
    simpa [combineAudio] using h
  have hlen : buf.data.length = numberOfChannels slides := by
    rw [(copySlides_shape slides _ _ 0 _ buf h').1]
    simp [createBuffer]
  constructor
  · intro s0 b0 h0 hb0 hpos
    rw [hlen]
    unfold numberOfChannels
    rw [h0]
    simp only [Option.some_bind, hb0, Option.map_some', Option.getD_some,
      AudioBuf.numberOfChannels]
    rw [if_neg (by omega)]
  · intro hnone
    rw [hlen]
    unfold numberOfChannels
    rw [hnone]
    simp

/-- C9 witness: a mono first slide followed by a three-channel slide
yields a mono composite — the later slide's extra channels are ignored. -/
theorem combineAudio_channelCount_witness :
    ∃ buf, combineAudio 10 1 mixedChannelSlides = some buf
      ∧ buf.data.length = 1 := by
  have heval : combineAudio 10 1 mixedChannelSlides
      = copySlides 1 10 mixedChannelSlides 0 (createBuffer 1 40 10) :=
    combineAudio_eval 10 1 mixedChannelSlides 1 40 10 (by decide)
      (by
        norm_num [totalAudioDuration, mixedChannelSlides, monoSlide, monoBuf,
          threeChanBuf, AudioBuf.duration]
        decide)
      (by norm_num; decide)
  obtain ⟨buf, hbuf⟩ : ∃ b, combineAudio 10 1 mixedChannelSlides = some b := by
    refine Option.isSome_iff_exists.mp ?_
    rw [heval]
    decide
  refine ⟨buf, hbuf, ?_⟩
  exact (combineAudio_channelCount 10 1 mixedChannelSlides buf hbuf).1
    (monoSlide 10 10) (monoBuf 10 10) (by decide) rfl (by decide)

/-! ## C4: no sample-rate validation, no resampling -/

theorem copyChannelsAux_untouched :
    ∀ (chs : List ℕ) (src : AudioBuf) (offset : ℕ) (dst out : AudioBuf) (ch : ℕ),
      copyChannelsAux src offset chs dst = some out → ch ∉ chs →
      out.data.get? ch = dst.data.get? ch
  | [], _, _, dst, out, ch, h, _ => by
      simp only [copyChannelsAux, Option.some_inj] at h
      subst h
      rfl
  | c :: chs, src, offset, dst, out, ch, h, hnot => by
      simp only [copyChannelsAux] at h
      obtain ⟨sd, hsd, h⟩ := Option.bind_eq_some.mp h
      obtain ⟨td, htd, h⟩ := Option.bind_eq_some.mp h
      obtain ⟨nd, hnd, h⟩ := Option.bind_eq_some.mp h
      have hcc : c ≠ ch := fun hc => hnot (hc ▸ List.mem_cons_self c chs)
      rw [copyChannelsAux_untouched chs src offset _ out ch h
        (fun hc => hnot (List.mem_cons_of_mem c hc))]
      exact List.get?_set_ne nd dst.data hcc

theorem copyChannelsAux_written :
    ∀ (chs : List ℕ) (src : AudioBuf) (offset : ℕ) (dst out : AudioBuf) (ch : ℕ),
      copyChannelsAux src offset chs dst = some out →
      chs.Nodup → ch ∈ chs →
      ∃ srcD tgt newD, src.data.get? ch = some srcD
        ∧ dst.data.get? ch = some tgt
        ∧ setAt tgt srcD offset = some newD
        ∧ out.data.get? ch = some newD
  | [], _, _, _, _, ch, _, _, hmem => absurd hmem (List.not_mem_nil ch)
  | c :: chs, src, offset, dst, out, ch, h, hnd, hmem => by
      simp only [copyChannelsAux] at h
      obtain ⟨sd, hsd, h⟩ := Option.bind_eq_some.mp h
      obtain ⟨td, htd, h⟩ := Option.bind_eq_some.mp h
      obtain ⟨nd, hnd2, h⟩ := Option.bind_eq_some.mp h
      rcases List.mem_cons.mp hmem with rfl | hmem'
      · refine ⟨sd, td, nd, hsd, htd, hnd2, ?_⟩
        have huntouched := copyChannelsAux_untouched chs src offset _ out ch h
          (List.nodup_cons.mp hnd).1
        rw [huntouched]
        obtain ⟨hlt, _⟩ := List.get?_eq_some.mp htd
        exact List.get?_set_eq_of_lt nd hlt
      · have hcc : c ≠ ch := fun heq => (List.nodup_cons.mp hnd).1 (heq ▸ hmem')
        obtain ⟨srcD, tgt, newD, a1, a2, a3, a4⟩ := copyChannelsAux_written chs src
          offset _ out ch h (List.nodup_cons.mp hnd).2 hmem'
        rw [show ({ dst with data := dst.data.set c nd } : AudioBuf).data
            = dst.data.set c nd from rfl, List.get?_set_ne nd dst.data hcc] at a2
        exact ⟨srcD, tgt, newD, a1, a2, a3, a4⟩

theorem copyChannelsAux_take_eq :
    ∀ (chs : List ℕ) (src : AudioBuf) (offset m : ℕ) (dst out : AudioBuf),
      copyChannelsAux src offset chs dst = some out → m ≤ offset →
      ∀ ch, (out.data.get? ch).map (List.take m)
        = (dst.data.get? ch).map (List.take m)
  | [], _, _, _, dst, out, h, _ => by
      simp only [copyChannelsAux, Option.some_inj] at h
      subst h
      intro ch
      rfl
  | c :: chs, src, offset, m, dst, out, h, hm => by
      simp only [copyChannelsAux] at h
      obtain ⟨sd, hsd, h⟩ := Option.bind_eq_some.mp h
      obtain ⟨td, htd, h⟩ := Option.bind_eq_some.mp h
      obtain ⟨nd, hnd, h⟩ := Option.bind_eq_some.mp h
      intro ch
      rw [copyChannelsAux_take_eq chs src offset m _ out h hm ch]
      by_cases hcch : c = ch
      · subst hcch
        have htd' : dst.data.get? c = some td := htd
        obtain ⟨hlt, _⟩ := List.get?_eq_some.mp htd'
        rw [show ({ dst with data := dst.data.set c nd } : AudioBuf).data
            = dst.data.set c nd from rfl, List.get?_set_eq_of_lt nd hlt, htd']
        simp only [Option.map_some']
        rw [setAt_take_eq hnd hm]
      · rw [show ({ dst with data := dst.data.set c nd } : AudioBuf).data
            = dst.data.set c nd from rfl, List.get?_set_ne nd dst.data hcch]

theorem copySlides_take_eq :
    ∀ (rest : List Slide) (nCh pad offset m : ℕ) (buf out : AudioBuf),
      copySlides nCh pad rest offset buf = some out → m ≤ offset →
      ∀ ch, (out.data.get? ch).map (List.take m)
        = (buf.data.get? ch).map (List.take m)
  | [], _, _, _, _, buf, out, h, _ => by
      simp only [copySlides, Option.some_inj] at h
      subst h
      intro ch
      rfl
  | s :: rest, nCh, pad, offset, m, buf, out, h, hm => by
      simp only [copySlides] at h
      cases hb : s.audioBuffer with
      | none =>
          rw [hb] at h
          exact copySlides_take_eq rest nCh pad offset m buf out h hm
      | some b =>
          rw [hb] at h
          obtain ⟨buf2, hbuf2, h⟩ := Option.bind_eq_some.mp h
          intro ch
          rw [copySlides_take_eq rest nCh pad _ m buf2 out h (by omega) ch]
          exact copyChannelsAux_take_eq _ _ _ m _ _ hbuf2 hm ch

/-- The copy loop writes every populated slide's channel data verbatim
at the slide's running offset: if slide `i` of the processed list carries
audio `b` (uniform channel lengths) then, on success, each composite
channel `ch < nCh` holds `b`'s channel `ch` sample for sample starting at
`offset + copyOffset pad (slides.take i)`. -/
theorem copySlides_written :
    ∀ (slides : List Slide) (i : ℕ) (s : Slide) (b : AudioBuf)
      (nCh pad offset : ℕ) (buf out : AudioBuf),
      copySlides nCh pad slides offset buf = some out →
      slides.get? i = some s → s.audioBuffer = some b →
      (∀ c ∈ b.data, c.length = b.length) →
      ∀ ch srcD, ch < nCh → b.data.get? ch = some srcD →
      ∃ t, out.data.get? ch = some t
        ∧ (t.drop (offset + copyOffset pad (slides.take i))).take srcD.length
            = srcD
  | [], i, s, b, nCh, pad, offset, buf, out, h, hget, _, _ => by
      simp at hget
  | s0 :: rest, 0, s, b, nCh, pad, offset, buf, out, h, hget, hb, hu => by
      intro ch srcD hch hsrc
      simp only [List.get?_cons_zero, Option.some_inj] at hget
      subst hget
      simp only [copySlides, hb] at h
      obtain ⟨buf1, hbuf1, hrest⟩ := Option.bind_eq_some.mp h
      obtain ⟨srcD', tgt, newD, a1, a2, a3, a4⟩ := copyChannelsAux_written
        (List.range nCh) b offset buf buf1 ch hbuf1 (List.nodup_range _)
        (List.mem_range.mpr hch)
      rw [hsrc] at a1
      cases Option.some_inj.mp a1
      obtain ⟨hle, hnewD⟩ := setAt_eq_some a3
      have hsl : srcD.length = b.length := hu srcD (List.get?_mem hsrc)
      have hslice : (newD.drop offset).take srcD.length = srcD := by
        rw [hnewD, List.append_assoc,
          List.drop_left' (by simp only [List.length_take]; omega)]
        exact List.take_left srcD _
      have hm : offset + srcD.length ≤ offset + b.length + pad := by omega
      have hpres := copySlides_take_eq rest nCh pad (offset + b.length + pad)
        (offset + srcD.length) buf1 out hrest hm ch
      rw [a4] at hpres
      simp only [Option.map_some'] at hpres
      obtain ⟨t, ht, htke⟩ := Option.map_eq_some'.mp hpres
      refine ⟨t, ht, ?_⟩
      have e0 : copyOffset pad ((s0 :: rest).take 0) = 0 := rfl
      rw [e0, Nat.add_zero, List.take_drop, htke, ← List.take_drop]
      exact hslice
  | s0 :: rest, (i + 1), s, b, nCh, pad, offset, buf, out, h, hget, hb, hu => by
      intro ch srcD hch hsrc
      have hget' : rest.get? i = some s := by simpa using hget
      cases hb0 : s0.audioBuffer with
      | none =>
          simp only [copySlides, hb0] at h
          obtain ⟨t, ht, hslice⟩ := copySlides_written rest i s b nCh pad offset
            buf out h hget' hb hu ch srcD hch hsrc
          refine ⟨t, ht, ?_⟩
          have e : copyOffset pad ((s0 :: rest).take (i + 1))
              = copyOffset pad (rest.take i) := by
            simp [copyOffset, List.take_succ_cons, List.filterMap_cons, hb0]
          rw [e]
          exact hslice
      | some b0 =>
          simp only [copySlides, hb0] at h
          obtain ⟨buf1, hbuf1, hrest⟩ := Option.bind_eq_some.mp h
          obtain ⟨t, ht, hslice⟩ := copySlides_written rest i s b nCh pad
            (offset + b0.length + pad) buf1 out hrest hget' hb hu ch srcD hch hsrc
          refine ⟨t, ht, ?_⟩
          have e : offset + copyOffset pad ((s0 :: rest).take (i + 1))
              = offset + b0.length + pad + copyOffset pad (rest.take i) := by
            simp only [copyOffset, List.take_succ_cons, List.filterMap_cons,
              hb0, List.map_cons, List.sum_cons]
            omega
          rw [e]
          exact hslice

/-- C4 (amended): the audio builder performs no sample-rate or
channel-count validation — there is no `SampleRateMismatchError`, a slide
list with differing sample rates builds successfully — and it never
resamples: *every* populated slide's channel data (each channel below the
composite's channel count) is written verbatim, sample for sample, into
the composite at that slide's running offset, which is computed in the
audio context's sample rate (the offset advances by
`slide.audioBuffer.length + ceil(padding·contextRate)` per copied slide,
whatever the slide's own rate). -/
theorem combineAudio_noResample (r P : ℚ) (slides : List Slide)
    (buf : AudioBuf) (h : combineAudio r P slides = some buf)
    (i : ℕ) (s : Slide) (b : AudioBuf)
    (hi : slides.get? i = some s) (hb : s.audioBuffer = some b)
    (hu : ∀ c ∈ b.data, c.length = b.length) :
    ∀ ch srcD, ch < numberOfChannels slides → b.data.get? ch = some srcD →
      ∃ t, buf.data.get? ch = some t
        ∧ (t.drop (copyOffset ((⌈P * r⌉).toNat) (slides.take i))).take
            srcD.length = srcD := by
  intro ch srcD hch hsrc
  have h' : copySlides (numberOfChannels slides) ((⌈P * r⌉).toNat) slides 0
      (createBuffer (numberOfChannels slides)
        ((⌈totalAudioDuration P slides * r⌉).toNat) r) = some buf := by
    simpa [combineAudio] using h
  obtain ⟨t, ht, hslice⟩ := copySlides_written slides i s b
    (numberOfChannels slides) ((⌈P * r⌉).toNat) 0 _ buf h' hi hb hu
    ch srcD hch hsrc
  rw [Nat.zero_add] at hslice
  exact ⟨t, ht, hslice⟩

/-- C4 witness: with the context at 20 Hz, a first slide holding samples
`[5, 6, 7]` at 10 Hz and a second slide holding `[1, 2]` at 20 Hz
(mismatched rates), the build succeeds and both slides' samples sit
verbatim in the composite channel: `[5, 6, 7]` at offset 0 and `[1, 2]`
at offset 3 (the first slide's length, no resampling of the 10 Hz
slide). -/
theorem combineAudio_noResample_witness :
    ∃ buf t, combineAudio 20 0 rampSlides = some buf
      ∧ buf.data.get? 0 = some t
      ∧ (t.drop 0).take 3 = [5, 6, 7]
      ∧ (t.drop 3).take 2 = [1, 2] := by
  have heval : combineAudio 20 0 rampSlides
      = copySlides 1 0 rampSlides 0 (createBuffer 1 8 20) :=
    combineAudio_eval 20 0 rampSlides 1 8 0 (by decide)
      (by
        norm_num [totalAudioDuration, rampSlides, AudioBuf.duration]
        decide)
      (by norm_num)
  obtain ⟨buf, hbuf⟩ : ∃ x, combineAudio 20 0 rampSlides = some x := by
    refine Option.isSome_iff_exists.mp ?_
    rw [heval]
    decide
  obtain ⟨t, ht, h0⟩ := combineAudio_noResample 20 0 rampSlides buf hbuf 0
    ⟨"first", some ⟨10, 3, [[5, 6, 7]]⟩⟩ ⟨10, 3, [[5, 6, 7]]⟩ (by decide) rfl
    (by decide) 0 [5, 6, 7] (by decide) (by decide)
  obtain ⟨t2, ht2, h1⟩ := combineAudio_noResample 20 0 rampSlides buf hbuf 1
    ⟨"second", some ⟨20, 2, [[1, 2]]⟩⟩ ⟨20, 2, [[1, 2]]⟩ (by decide) rfl
    (by decide) 0 [1, 2] (by decide) (by decide)
  rw [ht] at ht2
  cases Option.some_inj.mp ht2
  have hoff : copyOffset ((⌈(0 : ℚ) * 20⌉).toNat) (rampSlides.take 1) = 3 := by
    rw [show ((⌈(0 : ℚ) * 20⌉).toNat) = 0 from by norm_num]
    decide
  rw [hoff] at h1
  exact ⟨buf, t, hbuf, ht, h0, h1⟩
